import Mathlib

/-!
Shallow embedding of `main.py` (HaircutBot): a Telegram bot that scrapes a
booking site for "Standby Haircuts" availability.  Pure computations (the
Slot Walker loop, the Result Formatter, the message router, the startup
token check) are translated into Lean functions; the browser environment is
modelled as an oracle (`PageView` per loop iteration, `ServiceEnv` per
service card), and Python exceptions as `Except` values.
-/

/-! ### Module-level constants (main.py lines 12-21) -/

def BOOKING_URL : String :=
  "https://liverpoolstreetbarber.simplybook.it/v2/#book/category/7/count/1/provider/any/"

def DAYS_TO_CHECK : Nat := 7

def PAGE_LOAD_TIMEOUT_MS : Nat := 60000

/-! ### Python string primitives, modelled over `List Char` so that the
kernel can evaluate them (core `String.trim`, `String.toLower` and the
`String` order do not reduce).  Python compares strings lexicographically
by code point, which `Char.toNat` reflects. -/

def stripChars (l : List Char) : List Char :=
  ((l.dropWhile Char.isWhitespace).reverse.dropWhile Char.isWhitespace).reverse

/-- Python `str.strip()`. -/
def pyStrip (s : String) : String := String.mk (stripChars s.data)

/-- Python `str.lower()` (ASCII model). -/
def pyLower (s : String) : String := String.mk (s.data.map Char.toLower)

/-- Python `str.replace("\n", " ")` for the single-character pattern used at
main.py line 118. -/
def replaceNlSpace (s : String) : String :=
  String.mk (s.data.map fun c => if c = '\n' then ' ' else c)

/-- `TIME_RE = re.compile(r"^\d{1,2}:\d{2}$")` as a full-match test
(ASCII-digit model of `\d`). -/
def timeRe (s : String) : Bool :=
  match s.data with
  | [a, b, c, d, e] => a.isDigit && b.isDigit && c = ':' && d.isDigit && e.isDigit
  | [a, c, d, e] => a.isDigit && c = ':' && d.isDigit && e.isDigit
  | _ => false

/-- Lexicographic-by-code-point comparison on code-point lists. -/
def listLe : List Nat → List Nat → Bool
  | [], _ => true
  | _ :: _, [] => false
  | a :: as, b :: bs => if a = b then listLe as bs else a.ble b

/-- Python `<=` on strings: lexicographic by code point. -/
def strLe (a b : String) : Bool :=
  listLe (a.data.map Char.toNat) (b.data.map Char.toNat)

/-- The order used by Python `sorted` on strings, as a `Prop` relation. -/
def pyLe (a b : String) : Prop := strLe a b = true

instance : DecidableRel pyLe := fun a b => instDecidableEqBool (strLe a b) true

instance : IsTotal String pyLe :=
  ⟨fun a b => by
    unfold pyLe strLe
    generalize a.data.map Char.toNat = x
    generalize b.data.map Char.toNat = y
    induction x generalizing y with
    | nil => left; rfl
    | cons xa xs ih =>
      cases y with
      | nil => right; rfl
      | cons ya ys =>
        simp only [listLe]
        by_cases h : xa = ya
        · rw [if_pos h, if_pos h.symm]
          exact ih ys
        · rw [if_neg h, if_neg (Ne.symm h)]
          rcases Nat.le_total xa ya with h' | h'
          · left; rw [Nat.ble_eq]; exact h'
          · right; rw [Nat.ble_eq]; exact h'⟩

instance : IsTrans String pyLe :=
  ⟨fun a b c hab hbc => by
    unfold pyLe strLe at hab hbc ⊢
    suffices h : ∀ x y z : List Nat, listLe x y = true → listLe y z = true →
        listLe x z = true from h _ _ _ hab hbc
    intro x
    induction x with
    | nil => intro y z _ _; rfl
    | cons xa xs ih =>
      intro y z hab hbc
      cases y with
      | nil => exact absurd hab (by simp [listLe])
      | cons ya ys =>
        cases z with
        | nil => exact absurd hbc (by simp [listLe])
        | cons za zs =>
          simp only [listLe] at hab hbc ⊢
          by_cases h1 : xa = ya
          · subst h1
            rw [if_pos rfl] at hab
            by_cases h2 : xa = za
            · subst h2
              rw [if_pos rfl] at hbc
              rw [if_pos rfl]
              exact ih ys zs hab hbc
            · rw [if_neg h2] at hbc
              rw [if_neg h2]
              exact hbc
          · rw [if_neg h1] at hab
            by_cases h2 : ya = za
            · subst h2
              rw [if_neg h1]
              exact hab
            · rw [if_neg h2] at hbc
              rw [Nat.ble_eq] at hab hbc
              by_cases h3 : xa = za
              · omega
              · rw [if_neg h3, Nat.ble_eq]
                omega⟩

/-- Python `sorted(set(l))` on strings: the distinct elements in ascending
lexicographic order (main.py line 133). -/
def pySortedSet (l : List String) : List String :=
  List.insertionSort pyLe l.dedup

/-! ### The calendar-date fallback (main.py line 116):
`(datetime.now().date() + timedelta(days=n)).strftime("%Y-%m-%d")`. -/

structure Date where
  year : Nat
  month : Nat
  day : Nat

def isLeap (y : Nat) : Bool := (y % 4 == 0 && y % 100 != 0) || y % 400 == 0

def daysInMonth (y m : Nat) : Nat :=
  if m = 2 then (if isLeap y then 29 else 28)
  else if m = 4 ∨ m = 6 ∨ m = 9 ∨ m = 11 then 30
  else 31

def nextCalendarDay (d : Date) : Date :=
  if d.day < daysInMonth d.year d.month then ⟨d.year, d.month, d.day + 1⟩
  else if d.month < 12 then ⟨d.year, d.month + 1, 1⟩
  else ⟨d.year + 1, 1, 1⟩

def addDays (d : Date) : Nat → Date
  | 0 => d
  | n + 1 => addDays (nextCalendarDay d) n

def pad2 (n : Nat) : String := if n < 10 then "0" ++ toString n else toString n

def pad4 (n : Nat) : String :=
  if n < 10 then "000" ++ toString n
  else if n < 100 then "00" ++ toString n
  else if n < 1000 then "0" ++ toString n
  else toString n

/-- `strftime("%Y-%m-%d")`. -/
def fmtDate (d : Date) : String :=
  pad4 d.year ++ "-" ++ pad2 d.month ++ "-" ++ pad2 d.day

/-! ### Slot Walker (main.py lines 93-153), as a state machine driven by a
page oracle: iteration `k` of the loop observes `page k`. -/

/-- What the page yields during one loop iteration: the first non-empty
date-label text found by the ordered selector strategies (or `none`), the
inner texts of the visible time buttons, and whether any of the "next day"
affordances succeeded. -/
structure PageView where
  dateLabel : Option String
  rawTimes : List String
  moved : Bool

/-- The loop state: `per_service` (an insertion-ordered dict), the
`seen_dates` set (insertion-ordered, duplicate-free), and `attempts`. -/
structure WalkState where
  perService : List (String × List String)
  seen : List String
  attempts : Nat

def initWalkState : WalkState := ⟨[], [], 0⟩

/-- Python dict assignment `m[k] = v`: overwrite in place or append. -/
def updateAssoc : List (String × List String) → String → List String →
    List (String × List String)
  | [], k, v => [(k, v)]
  | (k', v') :: rest, k, v =>
    if k' = k then (k, v) :: rest else (k', v') :: updateAssoc rest k v

/-- Python dict lookup `m.get(k)`. -/
def lookupAssoc : List (String × List String) → String → Option (List String)
  | [], _ => none
  | (k', v') :: rest, k => if k' = k then some v' else lookupAssoc rest k

/-- Python `set.add`, on the insertion-ordered duplicate-free list model. -/
def insertSet (l : List String) (x : String) : List String :=
  if x ∈ l then l else l ++ [x]

/-- The date label used by one iteration (main.py lines 99-118): the page's
label re-normalised (`replace("\n", " ").strip()`), or the fallback
`today + |seen_dates| days`. -/
def stepDate (today : Date) (v : PageView) (s : WalkState) : String :=
  match v.dateLabel with
  | none => fmtDate (addDays today s.seen.length)
  | some t => pyStrip (replaceNlSpace t)

/-- The time texts appended by one iteration (main.py lines 121-130):
each button's inner text stripped, kept when it matches `TIME_RE`. -/
def collectTimes (raw : List String) : List String :=
  (raw.map pyStrip).filter timeRe

def stepTimes (v : PageView) : List String := collectTimes v.rawTimes

/-- One iteration of the walker loop body except the day advance
(main.py lines 97-134): `attempts += 1`, and when any time matched,
`per_service[date_str] = sorted(set(times))` plus `seen_dates.add(date_str)`. -/
def stepWalk (today : Date) (v : PageView) (s : WalkState) : WalkState :=
  if (stepTimes v).isEmpty then { s with attempts := s.attempts + 1 }
  else
    { perService := updateAssoc s.perService (stepDate today v s) (pySortedSet (stepTimes v))
      seen := insertSet s.seen (stepDate today v s)
      attempts := s.attempts + 1 }

/-- The `while` loop (main.py line 96), fuel-indexed.  The guard is the
source's; the day-advance result `v.moved` decides the `break` at line 153. -/
def walkAux (today : Date) (page : Nat → PageView) : Nat → WalkState → WalkState
  | 0, s => s
  | fuel + 1, s =>
    if s.seen.length < DAYS_TO_CHECK ∧ s.attempts < DAYS_TO_CHECK * 2 then
      if (page s.attempts).moved then
        walkAux today page fuel (stepWalk today (page s.attempts) s)
      else stepWalk today (page s.attempts) s
    else s

/-- The whole walk for one service; `DAYS_TO_CHECK * 2` fuel is shown
sufficient below. -/
def walk (today : Date) (page : Nat → PageView) : WalkState :=
  walkAux today page (DAYS_TO_CHECK * 2) initWalkState

/-- The walker's records are consistent: the keys of `per_service` (in
insertion order) are exactly the seen date labels, the label set is
duplicate-free, and every recorded date has at least one time. -/
def WalkInv (s : WalkState) : Prop :=
  s.perService.map Prod.fst = s.seen ∧ s.seen.Nodup ∧ ∀ p ∈ s.perService, p.2 ≠ []

instance (s : WalkState) : Decidable (WalkInv s) :=
  inferInstanceAs (Decidable (s.perService.map Prod.fst = s.seen ∧ s.seen.Nodup ∧
    ∀ p ∈ s.perService, p.2 ≠ []))

/-! ### Result Formatter (main.py lines 170-184). -/

def noAvailMsg : String := "No available times found right now in Standby Haircuts."

def headerMsg : String := "✅ Standby Haircuts availability:"

/-- `f"   - {d}: {times_str}"` with `times_str = ", ".join(tlist)`. -/
def dateLine (p : String × List String) : String :=
  "   - " ++ p.1 ++ ": " ++ String.intercalate ", " p.2

/-- The lines one service contributes: nothing when its mapping is empty,
else `f"• {title}"` then one line per date, capped by `[:DAYS_TO_CHECK]`. -/
def serviceBlock (e : String × List (String × List String)) : List String :=
  if e.2.isEmpty then []
  else ("• " ++ e.1) :: (e.2.take DAYS_TO_CHECK).map dateLine

/-- The body of the `for title, days in results` loop, threading
`(lines, any_slots)`. -/
def formatFold (acc : List String × Bool) (e : String × List (String × List String)) :
    List String × Bool :=
  if e.2.isEmpty then acc
  else (acc.1 ++ (("• " ++ e.1) :: (e.2.take DAYS_TO_CHECK).map dateLine), true)

/-- The formatter (main.py lines 170-184). -/
def formatMessage (results : List (String × List (String × List String))) : String :=
  if (results.foldl formatFold ([], false)).2 = false then noAvailMsg
  else headerMsg ++ "\n" ++ String.intercalate "\n" (results.foldl formatFold ([], false)).1

/-- A rendered line that opens a service block (starts with the bullet). -/
def isTitleLine (s : String) : Bool :=
  match s.data with
  | c :: _ => c = '•'
  | [] => false

/-! ### The scrape routine's environment and exception handling
(main.py lines 29-191). -/

/-- The kinds of exception the browser-session setup can raise before the
`try` begins (main.py lines 29-31: playwright start, `chromium.launch`,
`new_page`).  Nothing catches these: they propagate out of the routine. -/
inductive LaunchExc where
  | playwrightStart
  | chromiumLaunch
  | newPage

/-- The kinds of exception the `try` block (main.py lines 33-184) can raise
and its `except` clause catches.  An individual click failure is not among
them: every click in the routine is wrapped locally and swallowed
(`continue` at line 79, `pass` elsewhere), modelled by the per-service
`clickOk` flag and the per-iteration `moved` flag instead. -/
inductive ScrapeExc where
  | pageLoad
  | selectorTimeout
  | unexpected

/-- One service card as the scraper observes it: the title locator's inner
text (`none` when reading it raises), whether clicking its Book button
succeeds, and the page oracle for its walk. -/
structure ServiceEnv where
  titleText : Option String
  clickOk : Bool
  page : Nat → PageView

/-- Service title (main.py lines 67-73): stripped inner text, or the
synthetic `f"Service {i+1}"` fallback. -/
def serviceTitle (i : Nat) (sv : ServiceEnv) : String :=
  match sv.titleText with
  | some t => pyStrip t
  | none => "Service " ++ toString (i + 1)

/-- The `results` list built by the per-service loop (main.py lines 60-155);
a failed Book click `continue`s past the service. -/
def scrapeResults (today : Date) (services : List ServiceEnv) :
    List (String × List (String × List String)) :=
  services.enum.filterMap fun p =>
    if p.2.clickOk then some (serviceTitle p.1 p.2, (walk today p.2.page).perService)
    else none

def noServicesMsg : String :=
  "I couldn’t find any services to check in the Standby Haircuts category right now."

def genericFailureMsg : String :=
  "Sorry—something went wrong while checking the page. Please try again in a minute."

/-- The `try` body once the browser is up (main.py lines 55-184): zero Book
buttons short-circuits to `noServicesMsg`, otherwise walk every service and
format. -/
def scrapeBodyModel (today : Date) (services : List ServiceEnv) : String :=
  if services.length = 0 then noServicesMsg
  else formatMessage (scrapeResults today services)

/-- `scrape_standby_times` (main.py lines 23-191).  `launch` is the
playwright start / browser launch / page creation phase (lines 29-31),
which sits outside the `try` that begins at line 33: an exception there
propagates to the caller (the `.error` result).  Once inside the `try`, the
body either completes having observed `services`, or raises some
`ScrapeExc`; the `except` clause closes the browser best-effort
(`closeResult` is the close attempt, its failure swallowed) and returns the
generic failure text. -/
def scrape_standby_times (today : Date) (launch : Except LaunchExc Unit)
    (outcome : Except ScrapeExc (List ServiceEnv))
    (closeResult : Except Unit Unit) : Except LaunchExc String :=
  match launch with
  | .error e => .error e
  | .ok _ =>
    match outcome, closeResult with
    | .ok services, _ => .ok (scrapeBodyModel today services)
    | .error _, _ => .ok genericFailureMsg

/-! ### Chat Interface Adapter (main.py lines 196-212). -/

def HELP_TEXT : String :=
  "Hi! Send me:  \n" ++
  "• haircut — I’ll fetch available Standby Haircuts days & times.\n\n" ++
  "Tip: If I don’t reply, make sure my service (Railway or Replit) is running."

def ackMsg : String := "One moment—checking the Standby Haircuts page…"

def redirectMsg : String :=
  "Send haircut and I’ll check Standby Haircuts availability for you."

/-- `message_router` (main.py lines 205-212): returns the replies sent, in
order, and whether the scrape pipeline was invoked.  `scrapeReply` stands
for whatever `scrape_standby_times` returned; `text` is
`update.message.text` (`none` when the field is `None`). -/
def message_router (scrapeReply : String) (text : Option String) : List String × Bool :=
  let t := pyLower (pyStrip (text.getD ""))
  if t = "haircut" then ([ackMsg, scrapeReply], true)
  else ([redirectMsg], false)

/-! ### Startup token check (main.py lines 17-19). -/

def botTokenMissingMsg : String := "Please set BOT_TOKEN as an environment variable."

/-- The running bot, only reachable with a token in hand. -/
inductive BotStartup where
  | serving (token : String)

/-- Module import then `main()`: `os.environ.get("BOT_TOKEN")` is checked
for Python falsiness (absent or empty) and `SystemExit` is raised before
the Application is built. -/
def startBot (env : String → Option String) : Except String BotStartup :=
  match env "BOT_TOKEN" with
  | none => .error botTokenMissingMsg
  | some t => if t = "" then .error botTokenMissingMsg else .ok (.serving t)

/-! ### Helper lemmas: `pySortedSet` -/

theorem pySortedSet_sorted (l : List String) : List.Sorted pyLe (pySortedSet l) :=
  List.sorted_insertionSort pyLe l.dedup

theorem pySortedSet_perm (l : List String) : (pySortedSet l).Perm l.dedup :=
  List.perm_insertionSort pyLe l.dedup

theorem pySortedSet_nodup (l : List String) : (pySortedSet l).Nodup :=
  (pySortedSet_perm l).symm.nodup (List.nodup_dedup l)

theorem pySortedSet_mem (l : List String) (x : String) : x ∈ pySortedSet l ↔ x ∈ l :=
  (pySortedSet_perm l).mem_iff.trans List.mem_dedup

theorem pySortedSet_ne_nil (l : List String) (h : l ≠ []) : pySortedSet l ≠ [] := by
  intro h0
  apply h
  rw [← List.dedup_eq_nil]
  have hlen := (pySortedSet_perm l).length_eq
  rw [h0] at hlen
  exact List.length_eq_zero.mp hlen.symm

/-! ### Helper lemmas: the walker state -/

theorem insertSet_length (l : List String) (x : String) :
    (insertSet l x).length ≤ l.length + 1 := by
  unfold insertSet
  split
  · omega
  · simp

theorem insertSet_nodup (l : List String) (x : String) (h : l.Nodup) :
    (insertSet l x).Nodup := by
  unfold insertSet
  split
  · exact h
  · next hx =>
    rw [List.nodup_append]
    refine ⟨h, List.nodup_singleton x, fun a ha hax => hx ?_⟩
    rw [List.mem_singleton] at hax
    exact hax ▸ ha

theorem updateAssoc_map_fst (m : List (String × List String)) (k : String) (v : List String) :
    (updateAssoc m k v).map Prod.fst = insertSet (m.map Prod.fst) k := by
  induction m with
  | nil => simp [updateAssoc, insertSet]
  | cons e rest ih =>
    obtain ⟨k', v'⟩ := e
    by_cases hk : k' = k
    · subst hk
      simp [updateAssoc, insertSet]
    · simp only [updateAssoc, if_neg hk, List.map_cons, ih, insertSet]
      by_cases hmem : k ∈ rest.map Prod.fst
      · simp [hmem, Ne.symm hk]
      · simp [hmem, Ne.symm hk]

theorem mem_updateAssoc (m : List (String × List String)) (k : String) (v : List String)
    (p : String × List String) (h : p ∈ updateAssoc m k v) : p ∈ m ∨ p = (k, v) := by
  induction m with
  | nil =>
    simp only [updateAssoc] at h
    right
    exact List.mem_singleton.mp h
  | cons e rest ih =>
    obtain ⟨k', v'⟩ := e
    simp only [updateAssoc] at h
    by_cases hk : k' = k
    · rw [if_pos hk] at h
      rcases List.mem_cons.mp h with h1 | h1
      · right; exact h1
      · left; exact List.mem_cons_of_mem _ h1
    · rw [if_neg hk] at h
      rcases List.mem_cons.mp h with h1 | h1
      · left; exact h1 ▸ List.mem_cons_self _ _
      · rcases ih h1 with h2 | h2
        · left; exact List.mem_cons_of_mem _ h2
        · right; exact h2

theorem lookupAssoc_updateAssoc (m : List (String × List String)) (k : String)
    (v : List String) : lookupAssoc (updateAssoc m k v) k = some v := by
  induction m with
  | nil => simp [updateAssoc, lookupAssoc]
  | cons e rest ih =>
    obtain ⟨k', v'⟩ := e
    by_cases hk : k' = k
    · simp [updateAssoc, lookupAssoc, hk]
    · simp [updateAssoc, lookupAssoc, hk, ih]

theorem stepWalk_eq_no_times (today : Date) (v : PageView) (s : WalkState)
    (h : stepTimes v = []) :
    stepWalk today v s = ⟨s.perService, s.seen, s.attempts + 1⟩ := by
  unfold stepWalk
  rw [if_pos (List.isEmpty_iff.mpr h)]

theorem stepWalk_eq_times (today : Date) (v : PageView) (s : WalkState)
    (h : stepTimes v ≠ []) :
    stepWalk today v s =
      ⟨updateAssoc s.perService (stepDate today v s) (pySortedSet (stepTimes v)),
        insertSet s.seen (stepDate today v s), s.attempts + 1⟩ := by
  unfold stepWalk
  rw [if_neg (by simp [List.isEmpty_iff, h])]

theorem stepWalk_attempts (today : Date) (v : PageView) (s : WalkState) :
    (stepWalk today v s).attempts = s.attempts + 1 := by
  unfold stepWalk
  split <;> rfl

theorem stepWalk_seen_length (today : Date) (v : PageView) (s : WalkState) :
    (stepWalk today v s).seen.length ≤ s.seen.length + 1 := by
  unfold stepWalk
  split
  · exact Nat.le_succ _
  · exact insertSet_length _ _

theorem stepWalk_inv (today : Date) (v : PageView) (s : WalkState) (h : WalkInv s) :
    WalkInv (stepWalk today v s) := by
  by_cases ht : stepTimes v = []
  · rw [stepWalk_eq_no_times today v s ht]
    exact ⟨h.1, h.2.1, h.2.2⟩
  · rw [stepWalk_eq_times today v s ht]
    refine ⟨?_, insertSet_nodup _ _ h.2.1, ?_⟩
    · show (updateAssoc s.perService (stepDate today v s)
          (pySortedSet (stepTimes v))).map Prod.fst = insertSet s.seen (stepDate today v s)
      rw [updateAssoc_map_fst, h.1]
    · intro p hp
      rcases mem_updateAssoc _ _ _ p hp with h1 | h1
      · exact h.2.2 p h1
      · rw [h1]
        exact pySortedSet_ne_nil _ ht

/-! ### Helper lemmas: the walker loop -/

theorem walkAux_zero (today : Date) (page : Nat → PageView) (s : WalkState) :
    walkAux today page 0 s = s := rfl

theorem walkAux_guard_false (today : Date) (page : Nat → PageView) (fuel : Nat)
    (s : WalkState)
    (h : ¬(s.seen.length < DAYS_TO_CHECK ∧ s.attempts < DAYS_TO_CHECK * 2)) :
    walkAux today page fuel s = s := by
  cases fuel with
  | zero => rfl
  | succ f =>
    unfold walkAux
    rw [if_neg h]

theorem walkAux_attempts_le (today : Date) (page : Nat → PageView) (fuel : Nat) :
    ∀ s : WalkState, s.attempts ≤ DAYS_TO_CHECK * 2 →
      (walkAux today page fuel s).attempts ≤ DAYS_TO_CHECK * 2 := by
  induction fuel with
  | zero => intro s h; exact h
  | succ f ih =>
    intro s h
    by_cases g : s.seen.length < DAYS_TO_CHECK ∧ s.attempts < DAYS_TO_CHECK * 2
    · unfold walkAux
      rw [if_pos g]
      have hstep : (stepWalk today (page s.attempts) s).attempts ≤ DAYS_TO_CHECK * 2 := by
        rw [stepWalk_attempts]
        omega
      split
      · exact ih _ hstep
      · exact hstep
    · rw [walkAux_guard_false today page (f + 1) s g]
      exact h

theorem walkAux_seen_le (today : Date) (page : Nat → PageView) (fuel : Nat) :
    ∀ s : WalkState, s.seen.length ≤ DAYS_TO_CHECK →
      (walkAux today page fuel s).seen.length ≤ DAYS_TO_CHECK := by
  induction fuel with
  | zero => intro s h; exact h
  | succ f ih =>
    intro s h
    by_cases g : s.seen.length < DAYS_TO_CHECK ∧ s.attempts < DAYS_TO_CHECK * 2
    · unfold walkAux
      rw [if_pos g]
      have hstep : (stepWalk today (page s.attempts) s).seen.length ≤ DAYS_TO_CHECK := by
        have := stepWalk_seen_length today (page s.attempts) s
        omega
      split
      · exact ih _ hstep
      · exact hstep
    · rw [walkAux_guard_false today page (f + 1) s g]
      exact h

theorem walkAux_inv (today : Date) (page : Nat → PageView) (fuel : Nat) :
    ∀ s : WalkState, WalkInv s → WalkInv (walkAux today page fuel s) := by
  induction fuel with
  | zero => intro s h; exact h
  | succ f ih =>
    intro s h
    by_cases g : s.seen.length < DAYS_TO_CHECK ∧ s.attempts < DAYS_TO_CHECK * 2
    · unfold walkAux
      rw [if_pos g]
      split
      · exact ih _ (stepWalk_inv today (page s.attempts) s h)
      · exact stepWalk_inv today (page s.attempts) s h
    · rw [walkAux_guard_false today page (f + 1) s g]
      exact h

theorem walkAux_fuel_irrelevant (today : Date) (page : Nat → PageView) :
    ∀ fuel1 fuel2 : Nat, ∀ s : WalkState,
      DAYS_TO_CHECK * 2 ≤ s.attempts + fuel1 →
      DAYS_TO_CHECK * 2 ≤ s.attempts + fuel2 →
      walkAux today page fuel1 s = walkAux today page fuel2 s := by
  intro fuel1
  induction fuel1 with
  | zero =>
    intro fuel2 s h1 h2
    rw [walkAux_zero, walkAux_guard_false today page fuel2 s (fun g => by omega)]
  | succ f ih =>
    intro fuel2 s h1 h2
    by_cases g : s.seen.length < DAYS_TO_CHECK ∧ s.attempts < DAYS_TO_CHECK * 2
    · cases fuel2 with
      | zero => exfalso; omega
      | succ f2 =>
        unfold walkAux
        rw [if_pos g, if_pos g]
        by_cases hm : (page s.attempts).moved = true
        · rw [if_pos hm, if_pos hm]
          apply ih
          · rw [stepWalk_attempts]; omega
          · rw [stepWalk_attempts]; omega
        · rw [if_neg hm, if_neg hm]
    · rw [walkAux_guard_false today page (f + 1) s g,
        walkAux_guard_false today page fuel2 s g]

theorem walk_eq_walkAux (today : Date) (page : Nat → PageView) (fuel : Nat)
    (h : DAYS_TO_CHECK * 2 ≤ fuel) :
    walkAux today page fuel initWalkState = walk today page :=
  walkAux_fuel_irrelevant today page fuel (DAYS_TO_CHECK * 2) initWalkState
    (by omega) (by omega)

/-! ### Helper lemmas: the formatter -/

theorem foldl_formatFold (l : List (String × List (String × List String)))
    (lines : List String) (b : Bool) :
    l.foldl formatFold (lines, b) =
      (lines ++ l.flatMap serviceBlock, b || l.any fun e => !e.2.isEmpty) := by
  induction l generalizing lines b with
  | nil => simp
  | cons e rest ih =>
    by_cases he : e.2.isEmpty
    · have hblock : serviceBlock e = [] := by
        unfold serviceBlock
        rw [if_pos he]
      simp only [List.foldl_cons, List.flatMap_cons, List.any_cons, formatFold, if_pos he,
        hblock]
      rw [ih]
      simp [he]
    · have hblock : serviceBlock e = ("• " ++ e.1) :: (e.2.take DAYS_TO_CHECK).map dateLine := by
        unfold serviceBlock
        rw [if_neg he]
      simp only [List.foldl_cons, List.flatMap_cons, List.any_cons, formatFold, if_neg he,
        hblock]
      rw [ih]
      simp [he, List.append_assoc]

theorem isTitleLine_title (t : String) : isTitleLine ("• " ++ t) = true := by
  unfold isTitleLine
  rw [String.data_append]
  rfl

theorem isTitleLine_dateLine (p : String × List String) :
    isTitleLine (dateLine p) = false := by
  unfold isTitleLine dateLine
  rw [String.data_append, String.data_append, String.data_append]
  rfl

theorem countP_serviceBlock (e : String × List (String × List String)) :
    (serviceBlock e).countP isTitleLine = if e.2.isEmpty then 0 else 1 := by
  by_cases he : e.2.isEmpty
  · simp [serviceBlock, he]
  · rw [if_neg he]
    unfold serviceBlock
    rw [if_neg he, List.countP_cons, isTitleLine_title]
    have hz : ((e.2.take DAYS_TO_CHECK).map dateLine).countP isTitleLine = 0 := by
      rw [List.countP_eq_zero]
      intro a ha
      rcases List.mem_map.mp ha with ⟨p, _, rfl⟩
      simp [isTitleLine_dateLine]
    rw [hz]
    simp

theorem countP_flatMap_serviceBlock (results : List (String × List (String × List String))) :
    (results.flatMap serviceBlock).countP isTitleLine
      = results.countP fun e => !e.2.isEmpty := by
  induction results with
  | nil => rfl
  | cons e rest ih =>
    rw [List.flatMap_cons, List.countP_append, countP_serviceBlock, ih, List.countP_cons]
    by_cases he : e.2.isEmpty
    · simp [he]
    · simp [he, Nat.add_comm]

/-! ### Claim theorems -/

/-- Claim C1: the Slot Walker loop for one service terminates within at most
`2 * DAYS_TO_CHECK` iterations regardless of what the page returns — fuel of
`DAYS_TO_CHECK * 2` already computes the loop's fixed point, and the final
`attempts` counter (incremented once per iteration) never exceeds
`DAYS_TO_CHECK * 2` — and over the whole walk it records at most
`DAYS_TO_CHECK` distinct date labels in the per-service mapping. -/
theorem slotWalker_bounded (today : Date) (page : Nat → PageView) (fuel : Nat)
    (hfuel : DAYS_TO_CHECK * 2 ≤ fuel) :
    walkAux today page fuel initWalkState = walk today page
    ∧ (walk today page).attempts ≤ DAYS_TO_CHECK * 2
    ∧ (walk today page).seen.length ≤ DAYS_TO_CHECK
    ∧ (walk today page).perService.length ≤ DAYS_TO_CHECK
    ∧ ((walk today page).perService.map Prod.fst).Nodup := by
  have hinv : WalkInv (walk today page) :=
    walkAux_inv today page (DAYS_TO_CHECK * 2) initWalkState (by decide)
  have hseen : (walk today page).seen.length ≤ DAYS_TO_CHECK :=
    walkAux_seen_le today page (DAYS_TO_CHECK * 2) initWalkState (by decide)
  refine ⟨walk_eq_walkAux today page fuel hfuel, ?_, hseen, ?_, ?_⟩
  · exact walkAux_attempts_le today page (DAYS_TO_CHECK * 2) initWalkState (by decide)
  · calc (walk today page).perService.length
        = ((walk today page).perService.map Prod.fst).length := (List.length_map _ _).symm
      _ = (walk today page).seen.length := by rw [hinv.1]
      _ ≤ DAYS_TO_CHECK := hseen
  · rw [hinv.1]
    exact hinv.2.1

theorem slotWalker_bounded_witness :
    walkAux ⟨2026, 10, 12⟩ (fun _ => ⟨none, ["09:15"], true⟩) 20 initWalkState
        = walk ⟨2026, 10, 12⟩ (fun _ => ⟨none, ["09:15"], true⟩)
    ∧ (walk ⟨2026, 10, 12⟩ (fun _ => ⟨none, ["09:15"], true⟩)).attempts ≤ DAYS_TO_CHECK * 2
    ∧ (walk ⟨2026, 10, 12⟩ (fun _ => ⟨none, ["09:15"], true⟩)).seen.length ≤ DAYS_TO_CHECK
    ∧ (walk ⟨2026, 10, 12⟩
        (fun _ => ⟨none, ["09:15"], true⟩)).perService.length ≤ DAYS_TO_CHECK
    ∧ ((walk ⟨2026, 10, 12⟩
        (fun _ => ⟨none, ["09:15"], true⟩)).perService.map Prod.fst).Nodup :=
  slotWalker_bounded ⟨2026, 10, 12⟩ (fun _ => ⟨none, ["09:15"], true⟩) 20 (by decide)

/-- Claim C2: for every ScrapeResult with at least one non-empty per-service
mapping (and per-date time lists shaped as the walker records them, i.e.
fixed points of `pySortedSet`), the formatted output is the fixed header
line followed by the per-service blocks; a block exists exactly per service
with a non-empty mapping (exactly one bullet title line each, none for empty
services), and carries one line per date — capped at `DAYS_TO_CHECK`
entries — listing that date's times comma-joined, in lexical sorted order
with duplicates removed. -/
theorem formatter_nonempty (results : List (String × List (String × List String)))
    (hne : ∃ e ∈ results, e.2 ≠ [])
    (hts : ∀ e ∈ results, ∀ p ∈ e.2, p.2 = pySortedSet p.2) :
    formatMessage results
        = headerMsg ++ "\n" ++ String.intercalate "\n" (results.flatMap serviceBlock)
    ∧ (results.flatMap serviceBlock).countP isTitleLine
        = results.countP (fun e => !e.2.isEmpty)
    ∧ (∀ e ∈ results, e.2 ≠ [] →
        serviceBlock e = ("• " ++ e.1) :: (e.2.take DAYS_TO_CHECK).map dateLine
        ∧ ((e.2.take DAYS_TO_CHECK).map dateLine).length ≤ DAYS_TO_CHECK)
    ∧ (∀ e ∈ results, e.2 = [] → serviceBlock e = [])
    ∧ (∀ e ∈ results, ∀ p ∈ e.2, List.Sorted pyLe p.2 ∧ p.2.Nodup) := by
  refine ⟨?_, countP_flatMap_serviceBlock results, ?_, ?_, ?_⟩
  · unfold formatMessage
    rw [foldl_formatFold]
    have hany : (results.any fun e => !e.2.isEmpty) = true := by
      rw [List.any_eq_true]
      obtain ⟨e, he, hne2⟩ := hne
      exact ⟨e, he, by simp [List.isEmpty_eq_false.mpr hne2]⟩
    simp [hany]
  · intro e he h2
    constructor
    · unfold serviceBlock
      rw [if_neg (by simp [List.isEmpty_iff, h2])]
    · rw [List.length_map, List.length_take]
      exact inf_le_left
  · intro e he h2
    unfold serviceBlock
    rw [if_pos (List.isEmpty_iff.mpr h2)]
  · intro e he p hp
    rw [hts e he p hp]
    exact ⟨pySortedSet_sorted _, pySortedSet_nodup _⟩

theorem formatter_nonempty_witness :
    formatMessage [("Cut", [("2026-10-12", ["08:05", "09:15"])]), ("Shave", [])]
        = headerMsg ++ "\n" ++ String.intercalate "\n"
            ([("Cut", [("2026-10-12", ["08:05", "09:15"])]),
              ("Shave", [])].flatMap serviceBlock)
    ∧ ([("Cut", [("2026-10-12", ["08:05", "09:15"])]),
          ("Shave", [])].flatMap serviceBlock).countP isTitleLine
        = [("Cut", [("2026-10-12", ["08:05", "09:15"])]),
            ("Shave", [])].countP (fun e => !e.2.isEmpty)
    ∧ (∀ e ∈ [("Cut", [("2026-10-12", ["08:05", "09:15"])]), ("Shave", [])], e.2 ≠ [] →
        serviceBlock e = ("• " ++ e.1) :: (e.2.take DAYS_TO_CHECK).map dateLine
        ∧ ((e.2.take DAYS_TO_CHECK).map dateLine).length ≤ DAYS_TO_CHECK)
    ∧ (∀ e ∈ [("Cut", [("2026-10-12", ["08:05", "09:15"])]), ("Shave", [])], e.2 = [] →
        serviceBlock e = [])
    ∧ (∀ e ∈ [("Cut", [("2026-10-12", ["08:05", "09:15"])]), ("Shave", [])], ∀ p ∈ e.2,
        List.Sorted pyLe p.2 ∧ p.2.Nodup) :=
  formatter_nonempty [("Cut", [("2026-10-12", ["08:05", "09:15"])]), ("Shave", [])]
    (by decide) (by decide)

/-- Claim C3: for every ScrapeResult in which every service's date-to-times
mapping is empty, the Result Formatter returns exactly the fixed
"no availability" string and nothing else. -/
theorem formatter_all_empty (results : List (String × List (String × List String)))
    (h : ∀ e ∈ results, e.2 = []) :
    formatMessage results = noAvailMsg := by
  unfold formatMessage
  rw [foldl_formatFold]
  have hany : (results.any fun e => !e.2.isEmpty) = false := by
    rw [List.any_eq_false]
    intro e he
    simp [h e he]
  simp [hany]

theorem formatter_all_empty_witness :
    formatMessage [("Cut", []), ("Shave", [])] = noAvailMsg :=
  formatter_all_empty [("Cut", []), ("Shave", [])] (by decide)

/-- Claim C4: for every list of raw time-control texts read under one date
(each stripped text matching `TIME_RE`), the list recorded for that date is
the input with duplicates removed and sorted lexically. -/
theorem per_date_times (raw : List String)
    (h : ∀ t ∈ raw, timeRe (pyStrip t) = true) :
    pySortedSet (collectTimes raw) = pySortedSet (raw.map pyStrip)
    ∧ List.Sorted pyLe (pySortedSet (collectTimes raw))
    ∧ (pySortedSet (collectTimes raw)).Nodup
    ∧ ∀ t, t ∈ pySortedSet (collectTimes raw) ↔ t ∈ raw.map pyStrip := by
  have hfil : collectTimes raw = raw.map pyStrip := by
    unfold collectTimes
    rw [List.filter_eq_self]
    intro a ha
    rcases List.mem_map.mp ha with ⟨t, ht, rfl⟩
    exact h t ht
  refine ⟨by rw [hfil], pySortedSet_sorted _, pySortedSet_nodup _, fun t => ?_⟩
  rw [pySortedSet_mem, hfil]

theorem per_date_times_witness :
    pySortedSet (collectTimes ["09:15", "09:15", "08:05"]) = ["08:05", "09:15"]
    ∧ List.Sorted pyLe (pySortedSet (collectTimes ["09:15", "09:15", "08:05"])) :=
  ⟨by decide, (per_date_times ["09:15", "09:15", "08:05"] (by decide)).2.1⟩

/-- Claim C5: on a text message whose stripped, lowered text equals
"haircut", the router sends the acknowledgment and then the scrape result
verbatim (the scrape was invoked); on any other text it sends only the
fixed redirect prompt and does not invoke the scrape. -/
theorem router_dispatch (scrapeReply : String) (text : Option String) :
    (pyLower (pyStrip (text.getD "")) = "haircut" →
        message_router scrapeReply text = ([ackMsg, scrapeReply], true))
    ∧ (pyLower (pyStrip (text.getD "")) ≠ "haircut" →
        message_router scrapeReply text = ([redirectMsg], false)) := by
  unfold message_router
  constructor
  · intro h
    rw [if_pos h]
  · intro h
    rw [if_neg h]

theorem router_dispatch_witness :
    message_router "R" (some "  HairCut ") = ([ackMsg, "R"], true)
    ∧ message_router "R" (some "hello") = ([redirectMsg], false) :=
  ⟨(router_dispatch "R" (some "  HairCut ")).1 (by decide),
    (router_dispatch "R" (some "hello")).2 (by decide)⟩

theorem scrapeResults_all_click_failed (today : Date) (services : List ServiceEnv)
    (h : ∀ sv ∈ services, sv.clickOk = false) :
    scrapeResults today services = [] := by
  unfold scrapeResults
  rw [List.filterMap_eq_nil_iff]
  intro p hp
  have hmem : p.2 ∈ services := by
    have := List.mem_map_of_mem Prod.snd hp
    rwa [List.enum_map_snd] at this
  simp [h p.2 hmem]

/-- Claim C6 counterexample: an exception raised while launching the
browser (main.py line 30) happens during a scrape invocation but before
the `try` at line 33 begins, so the routine propagates it instead of
returning the fixed generic failure reply. -/
theorem scrape_launch_exception_uncaught :
    scrape_standby_times ⟨2026, 10, 12⟩ (.error .chromiumLaunch) (.ok []) (.ok ())
        = .error .chromiumLaunch
    ∧ scrape_standby_times ⟨2026, 10, 12⟩ (.error .chromiumLaunch) (.ok []) (.ok ())
        ≠ .ok genericFailureMsg :=
  ⟨rfl, fun h => Except.noConfusion h⟩

/-- Claim C6 (amended): an exception raised inside the `try` block — page
load failure from `goto` onward, selector timeout, or any unexpected
exception — is caught inside the scrape routine: the browser session is
closed best-effort (a failing close is swallowed and leaves the reply
unchanged) and the routine returns the single fixed generic failure string
instead of propagating; but an exception during playwright startup, browser
launch or page creation (before the `try`) propagates to the caller, and a
failing Book click is swallowed locally — the affected service is skipped
and the scrape replies normally, never with the generic failure string. -/
theorem scrape_exception_recovery (today : Date) (exc : ScrapeExc)
    (launchExc : LaunchExc) (closeResult : Except Unit Unit)
    (services : List ServiceEnv) :
    scrape_standby_times today (.ok ()) (.error exc) closeResult = .ok genericFailureMsg
    ∧ scrape_standby_times today (.ok ()) (.error exc) (.error ())
        = scrape_standby_times today (.ok ()) (.error exc) (.ok ())
    ∧ scrape_standby_times today (.error launchExc) (.ok services) closeResult
        = .error launchExc
    ∧ ((∀ sv ∈ services, sv.clickOk = false) → services ≠ [] →
        scrape_standby_times today (.ok ()) (.ok services) closeResult
          = .ok noAvailMsg) := by
  refine ⟨rfl, rfl, rfl, fun hall hne => ?_⟩
  show Except.ok (scrapeBodyModel today services) = Except.ok noAvailMsg
  unfold scrapeBodyModel
  rw [if_neg (by simpa [List.length_eq_zero] using hne),
    scrapeResults_all_click_failed today services hall]
  rfl

theorem scrape_exception_recovery_witness :
    scrape_standby_times ⟨2026, 10, 12⟩ (.ok ()) (.error .pageLoad) (.ok ())
        = .ok genericFailureMsg
    ∧ scrape_standby_times ⟨2026, 10, 12⟩ (.ok ()) (.error .pageLoad) (.error ())
        = scrape_standby_times ⟨2026, 10, 12⟩ (.ok ()) (.error .pageLoad) (.ok ())
    ∧ scrape_standby_times ⟨2026, 10, 12⟩ (.error .newPage)
        (.ok [⟨none, false, fun _ => ⟨none, [], false⟩⟩]) (.ok ()) = .error .newPage
    ∧ scrape_standby_times ⟨2026, 10, 12⟩ (.ok ())
        (.ok [⟨none, false, fun _ => ⟨none, [], false⟩⟩]) (.ok ()) = .ok noAvailMsg :=
  have h := scrape_exception_recovery ⟨2026, 10, 12⟩ .pageLoad .newPage (.ok ())
    [⟨none, false, fun _ => ⟨none, [], false⟩⟩]
  ⟨h.1, h.2.1, h.2.2.1, h.2.2.2 (by decide) (List.cons_ne_nil _ _)⟩

/-- Claim C7: when no selector strategy yields a date label, the walker
falls back to the calendar date `today + |seen date labels| days`, formatted
`YYYY-MM-DD`, as the date label of the current iteration (and records any
times found under that label). -/
theorem date_fallback (today : Date) (v : PageView) (s : WalkState)
    (h : v.dateLabel = none) :
    stepDate today v s = fmtDate (addDays today s.seen.length)
    ∧ (stepTimes v ≠ [] →
        (stepWalk today v s).perService
          = updateAssoc s.perService (fmtDate (addDays today s.seen.length))
              (pySortedSet (stepTimes v))) := by
  have hd : stepDate today v s = fmtDate (addDays today s.seen.length) := by
    unfold stepDate
    rw [h]
  refine ⟨hd, fun ht => ?_⟩
  rw [stepWalk_eq_times today v s ht, hd]

theorem date_fallback_witness :
    stepDate ⟨2026, 2, 27⟩ ⟨none, ["11:00"], false⟩ ⟨[], ["a", "b", "c"], 3⟩ = "2026-03-02"
    ∧ (stepWalk ⟨2026, 2, 27⟩ ⟨none, ["11:00"], false⟩ ⟨[], ["a", "b", "c"], 3⟩).perService
        = [("2026-03-02", ["11:00"])] := by
  have h := date_fallback ⟨2026, 2, 27⟩ ⟨none, ["11:00"], false⟩ ⟨[], ["a", "b", "c"], 3⟩ rfl
  refine ⟨?_, ?_⟩
  · rw [h.1]
    decide
  · rw [h.2 (by decide)]
    decide

/-- Claim C8: when zero "Book" controls are found, the scrape returns the
explicit "no services found" message through the normal (non-exception)
path, and that message is distinct from the generic failure message. -/
theorem zero_services_not_error (today : Date) (closeResult : Except Unit Unit) :
    scrape_standby_times today (.ok ()) (.ok []) closeResult = .ok noServicesMsg
    ∧ noServicesMsg ≠ genericFailureMsg :=
  ⟨rfl, by decide⟩

/-- Claim C9: if the bot token is absent from the process environment at
startup, the process fails with the fatal `SystemExit` message and never
reaches the serving state. -/
theorem missing_token_fatal (env : String → Option String)
    (h : env "BOT_TOKEN" = none) :
    startBot env = .error botTokenMissingMsg ∧ ∀ b, startBot env ≠ .ok b := by
  unfold startBot
  rw [h]
  exact ⟨rfl, fun b hb => Except.noConfusion hb⟩

theorem missing_token_fatal_witness :
    startBot (fun _ => none) = .error botTokenMissingMsg :=
  (missing_token_fatal (fun _ => none) rfl).1

/-- Claim C10: a date label is recorded exactly when at least one time was
read in that iteration, so the seen-date set always equals the key set of
the per-service mapping (with every key mapped to a non-empty list), and a
recurring date label with times overwrites the stored list — the lookup
after the step yields exactly the new sorted list. -/
theorem walker_record_invariant (today : Date) :
    (∀ (page : Nat → PageView) (fuel : Nat),
        WalkInv (walkAux today page fuel initWalkState))
    ∧ (∀ (v : PageView) (s : WalkState), WalkInv s → WalkInv (stepWalk today v s))
    ∧ (∀ (v : PageView) (s : WalkState), stepTimes v = [] →
        (stepWalk today v s).perService = s.perService
        ∧ (stepWalk today v s).seen = s.seen)
    ∧ (∀ (v : PageView) (s : WalkState), stepTimes v ≠ [] →
        (stepWalk today v s).seen = insertSet s.seen (stepDate today v s)
        ∧ lookupAssoc (stepWalk today v s).perService (stepDate today v s)
            = some (pySortedSet (stepTimes v))) := by
  refine ⟨fun page fuel => walkAux_inv today page fuel initWalkState (by decide),
    fun v s h => stepWalk_inv today v s h, fun v s ht => ?_, fun v s ht => ?_⟩
  · rw [stepWalk_eq_no_times today v s ht]
    exact ⟨rfl, rfl⟩
  · rw [stepWalk_eq_times today v s ht]
    exact ⟨rfl, lookupAssoc_updateAssoc _ _ _⟩

theorem walker_record_invariant_witness :
    WalkInv (walkAux ⟨2026, 10, 12⟩ (fun _ => ⟨none, ["09:15"], true⟩) 14 initWalkState)
    ∧ WalkInv (stepWalk ⟨2026, 10, 12⟩ ⟨some "d1", ["09:15"], true⟩
        ⟨[("d1", ["10:00"])], ["d1"], 1⟩)
    ∧ lookupAssoc
        (stepWalk ⟨2026, 10, 12⟩ ⟨some "d1", ["09:15"], true⟩
          ⟨[("d1", ["10:00"])], ["d1"], 1⟩).perService
        (stepDate ⟨2026, 10, 12⟩ ⟨some "d1", ["09:15"], true⟩
          ⟨[("d1", ["10:00"])], ["d1"], 1⟩)
        = some (pySortedSet (stepTimes ⟨some "d1", ["09:15"], true⟩)) :=
  ⟨(walker_record_invariant ⟨2026, 10, 12⟩).1 (fun _ => ⟨none, ["09:15"], true⟩) 14,
    (walker_record_invariant ⟨2026, 10, 12⟩).2.1 ⟨some "d1", ["09:15"], true⟩
      ⟨[("d1", ["10:00"])], ["d1"], 1⟩ (by decide),
    ((walker_record_invariant ⟨2026, 10, 12⟩).2.2.2 ⟨some "d1", ["09:15"], true⟩
      ⟨[("d1", ["10:00"])], ["d1"], 1⟩ (by decide)).2⟩
